import Mathlib

/-!
Verification of the VoiceChat client (static/app.js and its sibling variant).

The development shallowly embeds the client logic in Lean:

* JS objects from the backend JSON contract become structures
  (`Segment`, `AudioSegment`, `Pronunciation`, `Analysis`, `ChatResponse`,
  `StartResponse`).
* The ordered audio playback loop `playAudioSequentially` becomes a
  recursive function over the segment list, parametrised by an environment
  that decides whether each clip fires its ended or its error callback.
* The DOM-mutating handlers (`startSession`, `sendAudio`, `startRecording`)
  become explicit state transformers over `UiState` / `CaptureState`;
  the conversation history (the chat-history element) is a `List Msg`.
* JS truthiness on optional string / number fields is modelled explicitly
  (`jsTruthyStr`, empty string and 0 are falsy), and `String.toLowerCase`
  is modelled on the Latin-1 range, which covers both supported alphabets
  of the sentinel comparison.

The repository ships two variants of the client. The classifier-based
renderer (one block per segment, three-way language flag, correction via
`user_analysis`) and the legacy renderer (combined message, two-way flag,
correction via the `correction` string field) are both embedded, since the
specification draws on both.
-/

namespace VoiceChat

/-- One labeled unit of reply text, from the backend contract
`segments: [{lang, text}, ...]`. -/
structure Segment where
  lang : String
  text : String
deriving DecidableEq

/-- One rendered audio clip reference, from the backend contract
`audio_segments: [{lang, audio_url}, ...]`. -/
structure AudioSegment where
  lang : String
  audio_url : String
deriving DecidableEq

/-! ## Ordered audio playback engine

Source (`playAudioSequentially`, identical in both variants):

```js
async function playAudioSequentially(audioSegments) {
    for (const segment of audioSegments) {
        await new Promise((resolve, reject) => {
            const audio = new Audio(segment.audio_url);
            audio.onended = resolve;
            audio.onerror = reject;
            audio.play().catch(reject);
        });
    }
}
```

Each iteration starts one clip and suspends until the clip either ends
(`resolve`) or errors (`reject`); a rejection makes the awaited promise
throw, which aborts the whole loop.  The environment `env` abstracts the
platform audio facility: it decides, per clip, whether the ended or the
error callback fires. -/

/-- Outcome the platform reports for one started clip: the ended event, or
an error (failure to load or to start). -/
inductive ClipOutcome where
  | ended
  | failed
deriving DecidableEq

/-- Observable trace of one `playAudioSequentially(sequence)` call:
which clips were started (in start order), how many ended signals were
received, and whether the call completed successfully. -/
structure PlayTrace where
  started : List AudioSegment
  endedCount : Nat
  ok : Bool
deriving DecidableEq

/-- Shallow embedding of `playAudioSequentially`.  The loop starts the head
clip; if the environment reports `ended` the loop continues on the tail,
and if it reports `failed` the rejected promise aborts the loop with no
further clip started. -/
def playAudioSequentially (env : AudioSegment → ClipOutcome) :
    List AudioSegment → PlayTrace
  | [] => ⟨[], 0, true⟩
  | seg :: rest =>
    match env seg with
    | ClipOutcome.ended =>
      let t := playAudioSequentially env rest
      ⟨seg :: t.started, t.endedCount + 1, t.ok⟩
    | ClipOutcome.failed => ⟨[seg], 0, false⟩

/-- Clips are started in list order with nothing skipped: the list of
started clips is a prefix of the input sequence. -/
def demoSegA : AudioSegment := ⟨"fr", "a.mp3"⟩

/-- Second demonstration clip; its URL is the one the demonstration
environment fails on. -/
def demoSegB : AudioSegment := ⟨"ru", "b.mp3"⟩

/-- Third demonstration clip, positioned after the failing clip. -/
def demoSegC : AudioSegment := ⟨"fr", "c.mp3"⟩

/-- Demonstration audio environment: the clip at URL b.mp3 fails to play,
every other clip ends normally. -/
def demoEnv (s : AudioSegment) : ClipOutcome :=
  if s.audio_url = "b.mp3" then ClipOutcome.failed else ClipOutcome.ended

/-- Witness for C1: on the concrete three-clip sequence whose second clip
fails, exactly the first two clips start and the call fails. -/
def langFlag (lang : String) : String :=
  if lang = "fr" then "🇫🇷" else if lang = "ru" then "🇷🇺" else ""

/-- One rendered segment block: either a collapsed tip (toggle button plus
hidden content that the user must activate to reveal) or plainly shown
text. -/
inductive SegBlock where
  | tip (flag : String) (text : String)
  | plain (flag : String) (text : String)
deriving DecidableEq

/-- Shallow embedding of the per-segment rendering branch: a segment whose
language equals the session source (native) language becomes a collapsed
tip, any other segment becomes plainly shown text. -/
def renderSegment (sourceLang : String) (s : Segment) : SegBlock :=
  if s.lang = sourceLang then SegBlock.tip (langFlag s.lang) s.text
  else SegBlock.plain (langFlag s.lang) s.text

/-- Whether a rendered block shows its text immediately: tips are collapsed
behind the toggle, plain blocks are visible. -/
def visibleImmediately : SegBlock → Bool
  | SegBlock.tip _ _ => false
  | SegBlock.plain _ _ => true

/-- C2: classification of a segment yields visible_immediately = false if
and only if the segment language equals the session native (source)
language; native-language segments are rendered as collapsed tips behind
an explicit toggle and every other segment is shown plainly. -/
inductive RecState where
  | Idle
  | Recording
  | Processing
deriving DecidableEq

/-- Observable state of the capture controller: the phase, the buffered
audio chunks (abstracted as opaque chunk identifiers) and the generation
of the current MediaRecorder instance. -/
structure CaptureState where
  recState : RecState
  audioChunks : List Nat
  recorderGen : Nat
deriving DecidableEq

/-- Platform capabilities seen by `startRecording`: whether the media
devices API exists and whether microphone access is granted. -/
structure MicEnv where
  mediaDevicesSupported : Bool
  micAccessGranted : Bool
deriving DecidableEq

/-- Shallow embedding of `startRecording`.  Missing capability or denied
permission leaves the state unchanged (an alert is shown); otherwise a
fresh recorder replaces the current one, the chunk buffer is cleared and
recording starts, regardless of the previous phase. -/
def startRecording (env : MicEnv) (st : CaptureState) : CaptureState :=
  if env.mediaDevicesSupported = false then st
  else if env.micAccessGranted = false then st
  else ⟨RecState.Recording, [], st.recorderGen + 1⟩

/-- Shallow embedding of `stopRecording`: when a recorder exists and is not
inactive it is stopped, which hands the buffered chunks to the upload and
enters the processing phase; otherwise nothing happens. -/
def stopRecording (st : CaptureState) : CaptureState :=
  match st.recState with
  | RecState.Recording => { st with recState := RecState.Processing }
  | _ => st

/-- Demonstration environment with full microphone capability. -/
def micEnvOk : MicEnv := ⟨true, true⟩

/-- Demonstration controller state in the processing phase with one
buffered chunk and recorder generation one. -/
def processingSt : CaptureState := ⟨RecState.Processing, [7], 1⟩

/-- Demonstration controller state in the recording phase with one
buffered chunk. -/
def recordingSt : CaptureState := ⟨RecState.Recording, [7], 1⟩

/-- Counterexample to C3: a press while the controller is in the
Processing phase (and likewise Recording) is not a no-op — with microphone
access granted the state changes: the phase becomes Recording, the
buffered chunks are cleared, and a fresh recorder replaces the current
one. -/
def jsCharToLower (c : Char) : Char :=
  if 65 ≤ c.toNat ∧ c.toNat ≤ 90 then Char.ofNat (c.toNat + 32)
  else if 192 ≤ c.toNat ∧ c.toNat ≤ 222 ∧ c.toNat ≠ 215 then Char.ofNat (c.toNat + 32)
  else c

/-- String-level lowercasing via the character map. -/
def jsToLower (s : String) : String := ⟨s.data.map jsCharToLower⟩

/-- The sentinel string the backend sends when no correction is needed. -/
def correctionSentinel : String := "aucune correction nécessaire"

/-- Shallow embedding of the unnamed legacy handler: the correction is
appended to the AI content only when it is present, non-empty (JS
truthiness) and not case-insensitively equal to the sentinel. -/
def renderedAiContent (ai_response : String) (correction : Option String) : String :=
  match correction with
  | none => ai_response
  | some c =>
    if c = "" then ai_response
    else if jsToLower c = correctionSentinel then ai_response
    else ai_response ++ "<span class=\"correction\">" ++ c ++ "</span>"

/-- Shallow embedding of the static/app.js legacy handler: any truthy
correction string is rendered as a correction message, with no sentinel
filter. -/
def renderCorrectionAppJs (correction : Option String) : Option String :=
  match correction with
  | none => none
  | some c => if c = "" then none else some ("✓ Correction: " ++ c)

/-- Counterexample to C4: the handler at static/app.js renders a
correction that is case-insensitively equal to the sentinel — the payload
with capitalised first letter lowercases to the sentinel, yet it appears
in the rendered output. -/
def renderSegments (sourceLang : String) (segs : List Segment) : List SegBlock :=
  segs.map (renderSegment sourceLang)

/-- Language indicator of the static/app.js renderer: a two-way
conditional with no fallback, so every tag other than fr yields the
Russian indicator. -/
def langFlagAppJs (lang : String) : String :=
  if lang = "fr" then "🇫🇷" else "🇷🇺"

/-- Text contributed by one segment to the combined message of the
static/app.js renderer. -/
def segLine (s : Segment) : String := langFlagAppJs s.lang ++ " " ++ s.text

/-- Shallow embedding of the combined-message loop of static/app.js: a
fold over the indexed segment list, separating consecutive contributions
with a space. -/
def combinedSegmentsMessage (segs : List Segment) : String :=
  segs.enum.foldl
    (fun acc p => acc ++ (if 0 < p.1 then " " else "") ++ segLine p.2) ""

/-- Message blocks the static/app.js renderer appends for the segment list of one turn: nothing for an empty list, otherwise a single combined
message. -/
def appJsSegmentBlocks (segs : List Segment) : List String :=
  if segs.isEmpty then [] else [combinedSegmentsMessage segs]

/-- Space-separated tail of the combined message: every segment after the
first contributes a space followed by its line. -/
def tailLines (segs : List Segment) : String :=
  segs.foldr (fun t acc => " " ++ segLine t ++ acc) ""

/-- Folding the combined-message step over an indexed tail that starts at
a positive index prepends a space before every contribution. -/
def demoSegFr : Segment := ⟨"fr", "En russe on dit"⟩

/-- Demonstration target-language segment. -/
def demoSegRu : Segment := ⟨"ru", "Здравствуйте"⟩

/-- Counterexample to C7: on a two-segment turn the static/app.js renderer
appends a single combined message block, not one block per input
segment. -/
def jsTruthyStr (o : Option String) : Bool :=
  match o with
  | none => false
  | some s => s ≠ ""

/-- JS truthiness of an optional numeric field: absent and zero are both
falsy. -/
def jsTruthyNat (o : Option Nat) : Bool :=
  match o with
  | none => false
  | some n => n ≠ 0

/-- Rendering of `toFixed(1)` for an integral score. -/
def jsToFixed1 (n : Nat) : String := toString n ++ ".0"

/-- Qualitative band class driven by the overall score. -/
def scoreClassOf (score : Nat) : String :=
  if score ≥ 80 then "excellent" else if score ≥ 60 then "good" else "needs-work"

/-- Emoji accompanying the overall score, same thresholds as the band. -/
def scoreEmojiOf (score : Nat) : String :=
  if score ≥ 80 then "🎯" else if score ≥ 60 then "👍" else "🔄"

/-- Badge class for one word score. -/
def wordClassOf (score : Nat) : String :=
  if score ≥ 80 then "word-good" else if score ≥ 60 then "word-ok" else "word-bad"

/-- One per-word score entry of the pronunciation payload. -/
structure WordScore where
  word : String
  score : Option Nat
deriving DecidableEq

/-- Prosody metrics of the pronunciation payload. -/
structure Prosody where
  average_pitch_hz : Option Nat
  speech_rate_wps : Option Nat
  duration_s : Option Nat
deriving DecidableEq

/-- Pronunciation payload of a /chat response. -/
structure Pronunciation where
  score : Option Nat
  words : List WordScore
  prosody : Option Prosody
  feedback : Option String
deriving DecidableEq

/-- Metric lines of the prosody block; each metric is emitted only when
its field is truthy, exactly as in the source conditionals. -/
def prosodyMetrics (pr : Prosody) : List String :=
  (if jsTruthyNat pr.average_pitch_hz then
    ["🎵 Pitch: " ++ toString (pr.average_pitch_hz.getD 0) ++ " Hz"] else [])
  ++ (if jsTruthyNat pr.speech_rate_wps then
    ["⏱️ Vitesse: " ++ jsToFixed1 (pr.speech_rate_wps.getD 0) ++ " mots/s"] else [])
  ++ (if jsTruthyNat pr.duration_s then
    ["⏳ Durée: " ++ jsToFixed1 (pr.duration_s.getD 0) ++ "s"] else [])

/-- Rendered pronunciation panel: the pieces of the html string the source
assembles, kept structured. -/
structure PronPanel where
  header : String
  barClass : String
  wordBadges : List (String × String)
  prosodyLines : List String
  feedbackLine : Option String
deriving DecidableEq

/-- Shallow embedding of `displayPronunciationFeedback`: a missing score is
substituted by 0 (the JS or-default), the header always carries the score
formatted with one decimal, and the optional blocks are emitted only when
their fields are truthy. -/
def renderPronunciation (p : Pronunciation) : PronPanel :=
  let score := p.score.getD 0
  { header := scoreEmojiOf score ++ " Prononciation: " ++ jsToFixed1 score ++ "%"
    barClass := scoreClassOf score
    wordBadges := p.words.map (fun w => (wordClassOf (w.score.getD 0), w.word))
    prosodyLines := match p.prosody with
      | some pr => prosodyMetrics pr
      | none => []
    feedbackLine := if jsTruthyStr p.feedback then p.feedback else none }

/-- Correction analysis payload of a /chat response. -/
structure Analysis where
  is_correct : Bool
  corrected_text : Option String
  explanation : Option String
deriving DecidableEq

/-- Rendered correction panel of the classifier-based variant. -/
structure CorrectionPanel where
  headerClass : String
  icon : String
  title : String
  correctedShown : Option String
  explanationShown : Option String
deriving DecidableEq

/-- Shallow embedding of `displayCorrection`: nothing is appended when both
optional texts are falsy; otherwise the corrected text is shown only for
an incorrect utterance with truthy corrected text, and the explanation is
shown when truthy. -/
def displayCorrection (a : Analysis) : Option CorrectionPanel :=
  if jsTruthyStr a.corrected_text = false ∧ jsTruthyStr a.explanation = false then none
  else some
    { headerClass := if a.is_correct then "correct" else "incorrect"
      icon := if a.is_correct then "✨" else "💡"
      title := if a.is_correct then "Parfait !" else "Correction"
      correctedShown :=
        if a.is_correct = false ∧ jsTruthyStr a.corrected_text then a.corrected_text
        else none
      explanationShown := if jsTruthyStr a.explanation then a.explanation else none }

/-! ## Session controller and conversation history

The conversation history (the chat-history DOM element) is a list of
rendered messages.  `addMessage(text, sender, isPlaceholder, isHtml)`
appends one message div carrying the sender class and optionally the
placeholder class; the panel-producing helpers append their own divs. -/

/-- One entry of the conversation history. -/
inductive Msg where
  | plain (text : String) (sender : String) (placeholder : Bool)
  | html (text : String) (sender : String)
  | aiBlocks (blocks : List SegBlock)
  | pronPanel (panel : PronPanel)
  | correctionPanel (panel : CorrectionPanel)
deriving DecidableEq

/-- Whether a history entry matches the selector .message.user.placeholder
used to remove the pending placeholder. -/
def Msg.isUserPlaceholder : Msg → Bool
  | Msg.plain _ sender placeholder => placeholder && sender = "user"
  | _ => false

/-- The pending-turn placeholder appended before the /chat request. -/
def placeholderMsg : Msg := Msg.plain "..." "user" true

/-- The visible error marker appended on a failed turn. -/
def errorMsg : Msg := Msg.plain "Erreur lors du traitement." "system" false

/-- Client state the handlers read and write: the session parameters held
by the DOM controls, the stored session identifier, the one-way disabled
latch of the parameter controls, the status line and the conversation
history. -/
structure UiState where
  selectedLang : String
  level : String
  currentSessionId : Option String
  controlsDisabled : Bool
  statusText : String
  history : List Msg
deriving DecidableEq

/-- Parsed /chat response body. -/
structure ChatResponse where
  user_text : String
  pronunciation : Option Pronunciation
  user_analysis : Option Analysis
  segments : List Segment
  audio_segments : List AudioSegment
deriving DecidableEq

/-- Transport-level outcome of the /chat exchange. -/
inductive ChatResult where
  | netError
  | httpError
  | ok (resp : ChatResponse)

/-- History as it stands while the /chat request is in flight: the user
placeholder has been appended, the response has not arrived. -/
def sendAudioPending (hist : List Msg) : List Msg := hist ++ [placeholderMsg]

/-- History after the success path of `sendAudio` has rendered a response:
the placeholder is removed, then the user text, the optional pronunciation
panel, the optional correction panel and the segment container are
appended in source order. -/
def sendAudioSuccessHistory (sourceLang : String) (hist : List Msg)
    (resp : ChatResponse) : List Msg :=
  let h0 := List.eraseP (fun m => Msg.isUserPlaceholder m) hist
  let h1 := h0 ++ [Msg.plain resp.user_text "user" false]
  let h2 := match resp.pronunciation with
    | some p => h1 ++ [Msg.pronPanel (renderPronunciation p)]
    | none => h1
  let h3 := match resp.user_analysis with
    | some a =>
      match displayCorrection a with
      | some panel => h2 ++ [Msg.correctionPanel panel]
      | none => h2
    | none => h2
  if resp.segments.isEmpty then h3
  else h3 ++ [Msg.aiBlocks (renderSegments sourceLang resp.segments)]

/-- Shallow embedding of the classifier-based `sendAudio` handler, from
the point where the placeholder is appended.  A transport failure takes
the catch path: status Erreur, error marker appended, placeholder removed.
A parsed response is rendered by the success pipeline; a subsequent
playback failure of the audio segments also takes the catch path (the
rendered history keeps its entries, the placeholder is already gone), and
otherwise the status returns to ready. -/
def sendAudio (audioEnv : AudioSegment → ClipOutcome) (st : UiState)
    (r : ChatResult) : UiState :=
  let hist1 := sendAudioPending st.history
  match r with
  | ChatResult.netError =>
    { st with statusText := "Erreur"
              history := List.eraseP (fun m => Msg.isUserPlaceholder m)
                (hist1 ++ [errorMsg]) }
  | ChatResult.httpError =>
    { st with statusText := "Erreur"
              history := List.eraseP (fun m => Msg.isUserPlaceholder m)
                (hist1 ++ [errorMsg]) }
  | ChatResult.ok resp =>
    let h4 := sendAudioSuccessHistory st.selectedLang hist1 resp
    let playFailed : Bool := !resp.audio_segments.isEmpty
      && !(playAudioSequentially audioEnv resp.audio_segments).ok
    if playFailed then
      { st with statusText := "Erreur"
                history := List.eraseP (fun m => Msg.isUserPlaceholder m)
                  (h4 ++ [errorMsg]) }
    else
      { st with statusText := "Prêt", history := h4 }

/-- Parsed /start response body.  The response wrapper with its segments is
optional; an empty segment array is still present (and truthy), so
presence and emptiness are distinguished. -/
structure StartResponse where
  session_id : String
  respSegments : Option (List Segment)
  audio_segments : Option (List AudioSegment)

/-- Transport-level outcome of the /start exchange. -/
inductive StartResult where
  | netError
  | httpError
  | ok (d : StartResponse)

/-- Shallow embedding of `startSession`.  A transport failure takes the
catch path, which only sets the error status: no session identifier is
stored, no control is disabled, the history is untouched.  On success the
greeting segments (or the fallback welcome message) are appended, the
session identifier is stored, the parameter controls are disabled, the
greeting audio is played, and the status reflects a playback failure via
the same catch path (the stored identifier and the latch persist, having
been applied before playback). -/
def startSession (audioEnv : AudioSegment → ClipOutcome) (st : UiState)
    (r : StartResult) : UiState :=
  match r with
  | StartResult.netError => { st with statusText := "Error starting." }
  | StartResult.httpError => { st with statusText := "Error starting." }
  | StartResult.ok d =>
    let newEntry : Msg :=
      match d.respSegments with
      | some segs => Msg.aiBlocks (renderSegments st.selectedLang segs)
      | none => Msg.plain "👋 (Welcome)" "ai" false
    let playFailed : Bool :=
      match d.audio_segments with
      | some l => !(playAudioSequentially audioEnv l).ok
      | none => false
    { st with
      history := st.history ++ [newEntry]
      currentSessionId := some d.session_id
      controlsDisabled := true
      statusText := if playFailed then "Error starting." else "Your turn (Press Mic)" }

/-- User-visible events dispatched to the handlers.  Disabled DOM controls
deliver no click or change events, so the start click and the parameter
edits are guarded by the latch; there is no code path that re-enables the
controls. -/
inductive UiEvent where
  | clickStart (r : StartResult)
  | selectLang (lang : String)
  | selectLevel (level : String)
  | chatResult (r : ChatResult)

/-- One step of the event-driven client. -/
def step (audioEnv : AudioSegment → ClipOutcome) (st : UiState)
    (e : UiEvent) : UiState :=
  match e with
  | UiEvent.clickStart r =>
    if st.controlsDisabled then st else startSession audioEnv st r
  | UiEvent.selectLang lang =>
    if st.controlsDisabled then st else { st with selectedLang := lang }
  | UiEvent.selectLevel level =>
    if st.controlsDisabled then st else { st with level := level }
  | UiEvent.chatResult r => sendAudio audioEnv st r

/-- Entry the optional pronunciation payload contributes to the rendered
turn. -/
def pronEntry (o : Option Pronunciation) : List Msg :=
  match o with
  | some p => [Msg.pronPanel (renderPronunciation p)]
  | none => []

/-- Entry the optional analysis payload contributes to the rendered
turn. -/
def analysisEntry (o : Option Analysis) : List Msg :=
  match o with
  | some a =>
    match displayCorrection a with
    | some panel => [Msg.correctionPanel panel]
    | none => []
  | none => []

/-- Entry the segment list contributes to the rendered turn. -/
def segmentsEntry (sourceLang : String) (segs : List Segment) : List Msg :=
  if segs.isEmpty then [] else [Msg.aiBlocks (renderSegments sourceLang segs)]

/-- Entries one successfully rendered turn appends to the history, in
source order. -/
def turnEntries (sourceLang : String) (resp : ChatResponse) : List Msg :=
  [Msg.plain resp.user_text "user" false]
  ++ pronEntry resp.pronunciation
  ++ analysisEntry resp.user_analysis
  ++ segmentsEntry sourceLang resp.segments

/-- Removing the first user placeholder from a history that consists of
placeholder-free entries, then the placeholder, then a tail, removes
exactly the placeholder. -/
def uiSt0 : UiState := ⟨"fr", "A1", none, false, "Prêt", []⟩

/-- Witness for C5: on the concrete unstarted state, a /start network
error leaves the session unstarted with the error status shown, and a
/chat network error appends exactly the error marker. -/
def startResp0 : StartResponse := ⟨"sess-1", some [demoSegFr], none⟩

/-- Witness for C6: starting from the concrete unstarted state, a
successful start latches the controls, and a subsequent language edit and
a subsequent event sequence leave the latch and the parameters intact. -/
def respMinimal : ChatResponse := ⟨"Bonjour", none, none, [], []⟩

/-- Counterexample to C9: the history is mutated before the data of the turn
has arrived — `sendAudio` appends a user placeholder entry before the
/chat response, and that previously rendered entry is removed again when
the response arrives, so the history is neither add-free before the
response nor removal-free after it. -/
def pronNoScore : Pronunciation := ⟨none, [], none, none⟩

/-- Demonstration /chat response carrying the scoreless pronunciation
payload. -/
def respWithPron : ChatResponse := ⟨"Bonjour", some pronNoScore, none, [], []⟩

/-- Witness for C10: the concrete scoreless response renders the panel
with the substituted 0.0 percent header. -/
lemma play_starts_in_order (env : AudioSegment → ClipOutcome) :
    ∀ l : List AudioSegment, (playAudioSequentially env l).started <+: l := by
  intro l
  induction l with
  | nil => simp [playAudioSequentially]
  | cons seg rest ih =>
    cases h : env seg with
    | ended =>
      obtain ⟨t, ht⟩ := ih
      exact ⟨t, by simp [playAudioSequentially, h, ht]⟩
    | failed =>
      exact ⟨rest, by simp [playAudioSequentially, h]⟩

/-- When every clip in the sequence succeeds, the call completes with
exactly one ended signal per clip and every clip started once, in order. -/
lemma play_all_ended (env : AudioSegment → ClipOutcome) :
    ∀ l : List AudioSegment, (∀ s ∈ l, env s = ClipOutcome.ended) →
      playAudioSequentially env l = ⟨l, l.length, true⟩ := by
  intro l
  induction l with
  | nil => intro _; rfl
  | cons seg rest ih =>
    intro hall
    have hseg : env seg = ClipOutcome.ended := hall seg (by simp)
    have hrest : ∀ s ∈ rest, env s = ClipOutcome.ended := by
      intro s hs; exact hall s (by simp [hs])
    simp [playAudioSequentially, hseg, ih hrest]

/-- When every clip before position k succeeds and the clip at position k
fails, exactly the clips up to and including position k are started and
the call fails. -/
lemma play_fail_at (env : AudioSegment → ClipOutcome) :
    ∀ (xs : List AudioSegment) (y : AudioSegment) (zs : List AudioSegment),
      (∀ s ∈ xs, env s = ClipOutcome.ended) → env y = ClipOutcome.failed →
      playAudioSequentially env (xs ++ y :: zs) = ⟨xs ++ [y], xs.length, false⟩ := by
  intro xs
  induction xs with
  | nil =>
    intro y zs _ hy
    simp [playAudioSequentially, hy]
  | cons x xs ih =>
    intro y zs hall hy
    have hx : env x = ClipOutcome.ended := hall x (by simp)
    have hxs : ∀ s ∈ xs, env s = ClipOutcome.ended := by
      intro s hs; exact hall s (by simp [hs])
    simp [playAudioSequentially, hx, ih y zs hxs hy]

/-- C1: for every ordered AudioSegment sequence handed to
`playAudioSequentially`, clips are started strictly in list order with the
started clips forming a prefix of the sequence (the loop is sequential,
each clip awaited before the next starts, so no two clips overlap); when
all N clips succeed the call completes after exactly N sequential ended
signals with every clip started; the empty sequence completes immediately
as a success; and when the clip at position k fails, playback halts with
exactly the clips at positions up to k started and clips at positions
greater than k never started. -/
theorem claim1_playback_ordering (env : AudioSegment → ClipOutcome)
    (l : List AudioSegment) :
    (playAudioSequentially env l).started <+: l
    ∧ ((∀ s ∈ l, env s = ClipOutcome.ended) →
        playAudioSequentially env l = ⟨l, l.length, true⟩)
    ∧ playAudioSequentially env [] = ⟨[], 0, true⟩
    ∧ (∀ (xs : List AudioSegment) (y : AudioSegment) (zs : List AudioSegment),
        l = xs ++ y :: zs →
        (∀ s ∈ xs, env s = ClipOutcome.ended) → env y = ClipOutcome.failed →
        (playAudioSequentially env l).started = xs ++ [y]
        ∧ (playAudioSequentially env l).ok = false) := by
  refine ⟨play_starts_in_order env l, play_all_ended env l, rfl, ?_⟩
  intro xs y zs hdecomp hxs hy
  subst hdecomp
  rw [play_fail_at env xs y zs hxs hy]
  exact ⟨rfl, rfl⟩

/-- Demonstration clip list for the playback witness. -/
theorem claim1_playback_ordering_witness :
    (playAudioSequentially demoEnv [demoSegA, demoSegB, demoSegC]).started
      = [demoSegA, demoSegB]
    ∧ (playAudioSequentially demoEnv [demoSegA, demoSegB, demoSegC]).ok = false :=
  (claim1_playback_ordering demoEnv [demoSegA, demoSegB, demoSegC]).2.2.2
    [demoSegA] demoSegB [demoSegC] rfl (by decide) (by decide)

/-! ## Segment classification and disclosure

Source (`sendAudio` segment loop in the classifier-based variant; the same
loop appears in `startSession`):

```js
data.segments.forEach((segment) => {
    const langFlag = segment.lang === "fr" ? "[FR]" : (segment.lang === "ru" ? "[RU]" : "");
    const isNative = segment.lang === sourceLang;
    ...
    if (isNative) {
        // toggle button plus hidden-content div holding segment.text
    } else {
        // plain text block: langFlag + " " + segment.text
    }
    responseContainer.appendChild(segDiv);
});
```
-/

/-- Language indicator of the classifier-based renderer: a three-way
conditional falling back to the empty string for unrecognized tags. -/
theorem claim2_disclosure_policy (sourceLang : String) (s : Segment) :
    (visibleImmediately (renderSegment sourceLang s) = false ↔ s.lang = sourceLang)
    ∧ (s.lang = sourceLang →
        renderSegment sourceLang s = SegBlock.tip (langFlag s.lang) s.text)
    ∧ (s.lang ≠ sourceLang →
        renderSegment sourceLang s = SegBlock.plain (langFlag s.lang) s.text) := by
  by_cases h : s.lang = sourceLang
  · refine ⟨?_, fun _ => by simp [renderSegment, h], fun hne => absurd h hne⟩
    simp [renderSegment, h, visibleImmediately]
  · refine ⟨?_, fun heq => absurd heq h, fun _ => by simp [renderSegment, h]⟩
    simp [renderSegment, h, visibleImmediately]

/-- Witness for C2: with French as the native language, a French segment is
a collapsed tip and a Russian segment is plainly visible. -/
theorem claim2_disclosure_policy_witness :
    visibleImmediately (renderSegment "fr" ⟨"fr", "En russe on dit"⟩) = false
    ∧ visibleImmediately (renderSegment "fr" ⟨"ru", "Здравствуйте"⟩) = true :=
  ⟨(claim2_disclosure_policy "fr" ⟨"fr", "En russe on dit"⟩).1.mpr rfl,
   by
    have h := (claim2_disclosure_policy "fr" ⟨"ru", "Здравствуйте"⟩).2.2 (by decide)
    simp [h, visibleImmediately]⟩

/-! ## Microphone capture controller

Source (`startRecording` / `stopRecording`, identical in all variants):

```js
async function startRecording(e) {
    e.preventDefault();
    if (!navigator.mediaDevices || !navigator.mediaDevices.getUserMedia) {
        alert(...); return;
    }
    try {
        const stream = await navigator.mediaDevices.getUserMedia({ audio: true });
        mediaRecorder = new MediaRecorder(stream);
        audioChunks = [];
        mediaRecorder.ondataavailable = event => { audioChunks.push(event.data); };
        mediaRecorder.onstop = sendAudio;
        mediaRecorder.start();
        ...
    } catch (err) { alert(...); }
}
```

There is no guard on the current state: a press while a capture is already
in flight acquires a new stream, replaces `mediaRecorder` with a fresh
instance and clears `audioChunks`.  The controller state below records the
phase, the buffered chunks and a generation counter that increases every
time a fresh `MediaRecorder` replaces the previous one. -/

/-- Phase of the capture controller: idle, actively recording, or
processing (recorder stopped, upload in flight). -/
theorem claim3_counterexample :
    startRecording micEnvOk processingSt ≠ processingSt
    ∧ (startRecording micEnvOk processingSt).recState = RecState.Recording
    ∧ (startRecording micEnvOk recordingSt).audioChunks = []
    ∧ (startRecording micEnvOk recordingSt).recorderGen = 2 := by
  decide

/-- C3 amended: `startRecording` has no idempotent guard.  When media
capability is present and microphone access is granted, a press in any
phase — including Recording and Processing — starts a fresh capture: the
phase becomes Recording, the buffered chunks are cleared and a new
recorder instance replaces the current one; only a missing media-devices
API or a denied permission leaves the state unchanged. -/
theorem claim3_amended_no_guard (env : MicEnv) (st : CaptureState) :
    (env.mediaDevicesSupported = true → env.micAccessGranted = true →
      startRecording env st = ⟨RecState.Recording, [], st.recorderGen + 1⟩)
    ∧ (env.mediaDevicesSupported = false ∨ env.micAccessGranted = false →
      startRecording env st = st) := by
  constructor
  · intro hs hg
    simp [startRecording, hs, hg]
  · intro h
    rcases h with h | h <;> simp [startRecording, h]

/-- Witness for the amended C3: from the concrete Processing state, a
granted press yields a fresh Recording state with empty buffer. -/
theorem claim3_amended_no_guard_witness :
    startRecording micEnvOk processingSt = ⟨RecState.Recording, [], 2⟩ :=
  (claim3_amended_no_guard micEnvOk processingSt).1 rfl rfl

/-! ## Correction rendering and the no-correction sentinel

The legacy handler in the unnamed variant renders the correction inline
with the AI response:

```js
let aiContent = data.ai_response;
if (data.correction && data.correction.toLowerCase() !== "aucune correction nécessaire") {
    aiContent += "<span class=...correction...>" + data.correction + "</span>";
}
addMessage(aiContent, "ai", false, true);
```

The legacy handler in static/app.js renders the correction as its own
message with no sentinel filter:

```js
if (data.correction) {
    addMessage("✓ Correction: " + data.correction, "correction");
}
```
-/

/-- Model of the JavaScript `toLowerCase` restricted to the Latin-1 range:
ASCII capitals and Latin-1 capitals (except the multiplication sign) map
down by 32, which covers every character of the French sentinel. -/
theorem claim4_counterexample :
    jsToLower "Aucune correction nécessaire" = correctionSentinel
    ∧ renderCorrectionAppJs (some "Aucune correction nécessaire")
        = some "✓ Correction: Aucune correction nécessaire" := by
  constructor
  · rfl
  · rfl

/-- C4 amended: in the unnamed-variant handler, a correction payload
case-insensitively equal to the sentinel is treated as absent (the AI
content is rendered unchanged) and any other non-empty correction is
appended to the rendered output; the handler at static/app.js instead
renders every non-empty correction, the sentinel included. -/
theorem claim4_amended_sentinel (ai c : String) :
    (jsToLower c = correctionSentinel → renderedAiContent ai (some c) = ai)
    ∧ (c ≠ "" → jsToLower c ≠ correctionSentinel →
        renderedAiContent ai (some c)
          = ai ++ "<span class=\"correction\">" ++ c ++ "</span>")
    ∧ (c ≠ "" → renderCorrectionAppJs (some c) = some ("✓ Correction: " ++ c)) := by
  refine ⟨?_, ?_, ?_⟩
  · intro hsent
    by_cases hc : c = ""
    · simp [renderedAiContent, hc]
    · simp [renderedAiContent, hc, hsent]
  · intro hc hsent
    simp [renderedAiContent, hc, hsent]
  · intro hc
    simp [renderCorrectionAppJs, hc]

/-- Witness for the amended C4: the uppercase sentinel is suppressed by the
unnamed-variant handler, and an ordinary correction is appended. -/
theorem claim4_amended_sentinel_witness :
    renderedAiContent "Bien." (some "AUCUNE CORRECTION NÉCESSAIRE") = "Bien."
    ∧ renderedAiContent "Bien." (some "Il faut dire bonjour")
        = "Bien." ++ "<span class=\"correction\">" ++ "Il faut dire bonjour" ++ "</span>" :=
  ⟨(claim4_amended_sentinel "Bien." "AUCUNE CORRECTION NÉCESSAIRE").1 (by decide),
   (claim4_amended_sentinel "Bien." "Il faut dire bonjour").2.1 (by decide) (by decide)⟩

/-! ## Segment list rendering: one block per segment versus combined message

The classifier-based variant appends one child block per segment:

```js
data.segments.forEach((segment) => { ... responseContainer.appendChild(segDiv); });
```

The static/app.js variant concatenates all segments of a turn into one
message and its language flag is a two-way conditional:

```js
let combinedMessage = "";
data.segments.forEach((segment, index) => {
    const langFlag = segment.lang === "fr" ? "[FR]" : "[RU]";
    if (index > 0) combinedMessage += " ";
    combinedMessage += langFlag + " " + segment.text;
});
addMessage(combinedMessage, "ai", false, false);
```
-/

/-- Classifier-based rendering of the segment list of a turn: one block per
segment, in list order. -/
lemma combined_foldl_enumFrom (segs : List Segment) :
    ∀ (n : Nat) (acc : String),
      (segs.enumFrom (n + 1)).foldl
        (fun acc p => acc ++ (if 0 < p.1 then " " else "") ++ segLine p.2) acc
      = acc ++ tailLines segs := by
  induction segs with
  | nil => intro n acc; simp [tailLines]
  | cons x xs ih =>
    intro n acc
    simp only [List.enumFrom_cons, List.foldl_cons, tailLines, List.foldr_cons]
    rw [if_pos (Nat.succ_pos n)]
    rw [ih (n + 1) (acc ++ " " ++ segLine x)]
    simp [tailLines, String.append_assoc]

/-- Structural characterization of the combined message: the first segment
contributes its line without a leading space, each later segment follows
in list order, space-separated. -/
lemma combinedSegmentsMessage_eq (segs : List Segment) :
    combinedSegmentsMessage segs
      = match segs with
        | [] => ""
        | s :: rest => segLine s ++ tailLines rest := by
  cases segs with
  | nil => rfl
  | cons s rest =>
    simp only [combinedSegmentsMessage, List.enum_cons, List.foldl_cons]
    rw [if_neg (by simp)]
    rw [combined_foldl_enumFrom rest 0 ("" ++ "" ++ segLine s)]
    simp

/-- Demonstration native-language segment. -/
theorem claim7_counterexample :
    (appJsSegmentBlocks [demoSegFr, demoSegRu]).length = 1
    ∧ [demoSegFr, demoSegRu].length = 2
    ∧ (appJsSegmentBlocks [demoSegFr, demoSegRu]).length
        ≠ [demoSegFr, demoSegRu].length := by
  refine ⟨rfl, rfl, ?_⟩
  decide

/-- C7 amended: both renderers preserve the received order exactly and
drop nothing.  The classifier-based renderer emits one block per input
segment, the block at each position being the rendering of the segment at
that position; the static/app.js renderer instead merges the whole turn
into one combined message in which the segments appear in received order,
space-separated — one block per turn, not one block per segment. -/
theorem claim7_amended_order (sourceLang : String) (segs : List Segment) :
    (renderSegments sourceLang segs).length = segs.length
    ∧ (∀ (i : Nat) (h1 : i < segs.length)
        (h2 : i < (renderSegments sourceLang segs).length),
        (renderSegments sourceLang segs).get ⟨i, h2⟩
          = renderSegment sourceLang (segs.get ⟨i, h1⟩))
    ∧ appJsSegmentBlocks segs
        = (if segs.isEmpty then [] else [combinedSegmentsMessage segs])
    ∧ combinedSegmentsMessage segs
        = (match segs with
           | [] => ""
           | s :: rest => segLine s ++ tailLines rest) := by
  refine ⟨by simp [renderSegments], ?_, rfl, combinedSegmentsMessage_eq segs⟩
  intro i h1 h2
  simp [renderSegments, List.get_eq_getElem, List.getElem_map]

/-- Witness for the amended C7: on the concrete two-segment turn, the
classifier-based renderer emits two blocks in order and the static/app.js
renderer emits the single space-separated combined message. -/
theorem claim7_amended_order_witness :
    (renderSegments "fr" [demoSegFr, demoSegRu]).length = 2
    ∧ (renderSegments "fr" [demoSegFr, demoSegRu]).get ⟨0, by decide⟩
        = renderSegment "fr" demoSegFr
    ∧ combinedSegmentsMessage [demoSegFr, demoSegRu]
        = segLine demoSegFr ++ (" " ++ segLine demoSegRu ++ "") :=
  ⟨(claim7_amended_order "fr" [demoSegFr, demoSegRu]).1,
   (claim7_amended_order "fr" [demoSegFr, demoSegRu]).2.1 0 (by decide) (by decide),
   (claim7_amended_order "fr" [demoSegFr, demoSegRu]).2.2.2⟩

/-- Counterexample to C8: in the static/app.js renderer a segment tagged
with a language that is neither of the configured languages receives the
Russian indicator instead of no indicator. -/
theorem claim8_counterexample :
    langFlagAppJs "en" = "🇷🇺" ∧ langFlagAppJs "en" ≠ "" := by
  constructor
  · rfl
  · decide

/-- C8 amended: in the classifier-based renderer an unrecognized language
tag yields the empty indicator (and rendering is total, producing a plain
block when the tag also differs from the native language); in the
static/app.js renderer every tag other than fr — unrecognized tags
included — receives the Russian indicator. -/
theorem claim8_amended_indicator (lang : String) :
    (lang ≠ "fr" → lang ≠ "ru" → langFlag lang = "")
    ∧ (lang ≠ "fr" → langFlagAppJs lang = "🇷🇺")
    ∧ (∀ (sourceLang text : String), lang ≠ sourceLang →
        renderSegment sourceLang ⟨lang, text⟩ = SegBlock.plain (langFlag lang) text) := by
  refine ⟨?_, ?_, ?_⟩
  · intro h1 h2
    simp [langFlag, h1, h2]
  · intro h1
    simp [langFlagAppJs, h1]
  · intro sourceLang text h
    simp [renderSegment, h]

/-- Witness for the amended C8: the unknown tag en yields the empty
indicator in the classifier-based renderer, the Russian indicator in the
static/app.js renderer, and a plain rendered block. -/
theorem claim8_amended_indicator_witness :
    langFlag "en" = ""
    ∧ langFlagAppJs "en" = "🇷🇺"
    ∧ renderSegment "fr" ⟨"en", "hello"⟩ = SegBlock.plain "" "hello" :=
  ⟨(claim8_amended_indicator "en").1 (by decide) (by decide),
   (claim8_amended_indicator "en").2.1 (by decide),
   by
    have h := (claim8_amended_indicator "en").2.2 "fr" "hello" (by decide)
    rw [h]
    have hflag : langFlag "en" = "" := (claim8_amended_indicator "en").1 (by decide) (by decide)
    rw [hflag]⟩

/-! ## Feedback renderer

Source (`displayPronunciationFeedback`, classifier-based variant):

```js
const score = pronunciation.score || 0;
const scoreClass = score >= 80 ? "excellent" : score >= 60 ? "good" : "needs-work";
const scoreEmoji = score >= 80 ? "target" : score >= 60 ? "thumbs" : "cycle";
let html = ... scoreEmoji + " Prononciation: " + score.toFixed(1) + "%" ...;
if (pronunciation.words && pronunciation.words.length > 0) { per-word badges }
if (pronunciation.prosody) { metric divs, each behind a truthiness check }
if (pronunciation.feedback) { feedback div }
div.innerHTML = html; chatHistory.appendChild(div);
```

Scores are modelled as natural numbers (the backend scale is 0 to 100);
`toFixed(1)` on an integral score renders the digits followed by a
trailing .0. -/

/-- JS truthiness of an optional string field: absent and empty are both
falsy. -/
lemma eraseP_pending_append (hist rest : List Msg)
    (hclean : ∀ m ∈ hist, Msg.isUserPlaceholder m = false) :
    List.eraseP (fun m => Msg.isUserPlaceholder m)
      ((hist ++ [placeholderMsg]) ++ rest) = hist ++ rest := by
  rw [List.append_assoc]
  rw [List.eraseP_append_right]
  · simp [List.eraseP_cons, placeholderMsg, Msg.isUserPlaceholder]
  · intro m hm
    simp [hclean m hm]

/-- No pronunciation entry is a user placeholder. -/
lemma pronEntry_clean (o : Option Pronunciation) :
    ∀ m ∈ pronEntry o, Msg.isUserPlaceholder m = false := by
  intro m hm
  rcases o with _ | p <;> simp [pronEntry] at hm
  subst hm; rfl

/-- No analysis entry is a user placeholder. -/
lemma analysisEntry_clean (o : Option Analysis) :
    ∀ m ∈ analysisEntry o, Msg.isUserPlaceholder m = false := by
  intro m hm
  rcases o with _ | a
  · simp [analysisEntry] at hm
  · rcases hd : displayCorrection a with _ | panel <;>
      simp [analysisEntry, hd] at hm
    subst hm; rfl

/-- No segment container entry is a user placeholder. -/
lemma segmentsEntry_clean (sourceLang : String) (segs : List Segment) :
    ∀ m ∈ segmentsEntry sourceLang segs, Msg.isUserPlaceholder m = false := by
  intro m hm
  rcases he : segs.isEmpty with _ | _ <;> simp [segmentsEntry, he] at hm
  subst hm; rfl

/-- No entry a rendered turn appends is a user placeholder. -/
lemma turnEntries_clean (sourceLang : String) (resp : ChatResponse) :
    ∀ m ∈ turnEntries sourceLang resp, Msg.isUserPlaceholder m = false := by
  intro m hm
  simp only [turnEntries, List.append_assoc, List.mem_append, List.mem_singleton,
    List.mem_cons, List.not_mem_nil, or_false] at hm
  rcases hm with hm | hm | hm | hm
  · subst hm; rfl
  · exact pronEntry_clean resp.pronunciation m hm
  · exact analysisEntry_clean resp.user_analysis m hm
  · exact segmentsEntry_clean sourceLang resp.segments m hm

/-- The success pipeline resolves to the erased history followed by the
turn entries in source order. -/
lemma sendAudioSuccessHistory_spec (sourceLang : String) (hist0 : List Msg)
    (resp : ChatResponse) :
    sendAudioSuccessHistory sourceLang hist0 resp
      = List.eraseP (fun m => Msg.isUserPlaceholder m) hist0
        ++ [Msg.plain resp.user_text "user" false]
        ++ pronEntry resp.pronunciation
        ++ analysisEntry resp.user_analysis
        ++ segmentsEntry sourceLang resp.segments := by
  obtain ⟨ut, pr, ua, segs, asegs⟩ := resp
  simp only [sendAudioSuccessHistory]
  rcases pr with _ | p <;> rcases ua with _ | a <;>
    simp only [pronEntry, analysisEntry, segmentsEntry]
  · rcases he : segs.isEmpty with _ | _ <;> simp [he]
  · rcases hd : displayCorrection a with _ | panel <;>
      rcases he : segs.isEmpty with _ | _ <;> simp [hd, he]
  · rcases he : segs.isEmpty with _ | _ <;> simp [he]
  · rcases hd : displayCorrection a with _ | panel <;>
      rcases he : segs.isEmpty with _ | _ <;> simp [hd, he]

/-- The success pipeline applied to the pending history of a
placeholder-free history removes the placeholder and appends exactly the
turn entries. -/
lemma sendAudioSuccessHistory_eq (sourceLang : String) (hist : List Msg)
    (resp : ChatResponse)
    (hclean : ∀ m ∈ hist, Msg.isUserPlaceholder m = false) :
    sendAudioSuccessHistory sourceLang (sendAudioPending hist) resp
      = hist ++ turnEntries sourceLang resp := by
  have h0 : List.eraseP (fun m => Msg.isUserPlaceholder m) (sendAudioPending hist)
      = hist := by
    have := eraseP_pending_append hist [] hclean
    simpa [sendAudioPending] using this
  rw [sendAudioSuccessHistory_spec, h0, turnEntries]
  simp [List.append_assoc]

/-- The fields of the client state other than the status line and the
history are untouched by `sendAudio`, whatever the outcome. -/
lemma sendAudio_preserves_session (audioEnv : AudioSegment → ClipOutcome)
    (st : UiState) (r : ChatResult) :
    (sendAudio audioEnv st r).selectedLang = st.selectedLang
    ∧ (sendAudio audioEnv st r).level = st.level
    ∧ (sendAudio audioEnv st r).currentSessionId = st.currentSessionId
    ∧ (sendAudio audioEnv st r).controlsDisabled = st.controlsDisabled := by
  cases r with
  | netError => exact ⟨rfl, rfl, rfl, rfl⟩
  | httpError => exact ⟨rfl, rfl, rfl, rfl⟩
  | ok resp =>
    simp only [sendAudio]
    split <;> exact ⟨rfl, rfl, rfl, rfl⟩

/-- One event step preserves the parameter latch and the session
parameters once the controls are disabled. -/
lemma step_preserves_latch (audioEnv : AudioSegment → ClipOutcome)
    (st : UiState) (e : UiEvent) (h : st.controlsDisabled = true) :
    (step audioEnv st e).controlsDisabled = true
    ∧ (step audioEnv st e).selectedLang = st.selectedLang
    ∧ (step audioEnv st e).level = st.level
    ∧ (step audioEnv st e).currentSessionId = st.currentSessionId := by
  cases e with
  | clickStart r => simp [step, h]
  | selectLang lang => simp [step, h]
  | selectLevel level => simp [step, h]
  | chatResult r =>
    have hp := sendAudio_preserves_session audioEnv st r
    exact ⟨hp.2.2.2.trans h, hp.1, hp.2.1, hp.2.2.1⟩

/-- C5: a transport failure is surfaced as a visible error state and
leaves session and turn state consistent.  A /start transport failure
(network error or non-success status) leaves the session unstarted — no
session identifier stored, parameter controls still enabled, history
untouched, parameters untouched — with the error status shown, so the
caller may click start again; a /chat transport failure shows the error
status, appends exactly the visible error marker to the history and leaves
every session field unchanged.  Each embedded operation performs a single
exchange; no retry is modelled because the source contains none. -/
theorem claim5_transport_failure (audioEnv : AudioSegment → ClipOutcome)
    (st : UiState) :
    (∀ r : StartResult, r = StartResult.netError ∨ r = StartResult.httpError →
      st.currentSessionId = none → st.controlsDisabled = false →
      (startSession audioEnv st r).currentSessionId = none
      ∧ (startSession audioEnv st r).controlsDisabled = false
      ∧ (startSession audioEnv st r).statusText = "Error starting."
      ∧ (startSession audioEnv st r).history = st.history
      ∧ (startSession audioEnv st r).selectedLang = st.selectedLang
      ∧ (startSession audioEnv st r).level = st.level)
    ∧ (∀ r : ChatResult, r = ChatResult.netError ∨ r = ChatResult.httpError →
      (∀ m ∈ st.history, Msg.isUserPlaceholder m = false) →
      (sendAudio audioEnv st r).statusText = "Erreur"
      ∧ (sendAudio audioEnv st r).history = st.history ++ [errorMsg]
      ∧ (sendAudio audioEnv st r).currentSessionId = st.currentSessionId
      ∧ (sendAudio audioEnv st r).controlsDisabled = st.controlsDisabled
      ∧ (sendAudio audioEnv st r).selectedLang = st.selectedLang
      ∧ (sendAudio audioEnv st r).level = st.level) := by
  constructor
  · intro r hr hid hctl
    rcases hr with hr | hr <;> subst hr <;>
      exact ⟨hid, hctl, rfl, rfl, rfl, rfl⟩
  · intro r hr hclean
    have herase := eraseP_pending_append st.history [errorMsg] hclean
    rcases hr with hr | hr <;> subst hr <;>
      exact ⟨rfl, by simpa [sendAudio, sendAudioPending] using herase,
        rfl, rfl, rfl, rfl⟩

/-- Demonstration initial client state: French native, level A1, session
not yet started, empty history. -/
theorem claim5_transport_failure_witness :
    (startSession demoEnv uiSt0 StartResult.netError).currentSessionId = none
    ∧ (startSession demoEnv uiSt0 StartResult.netError).statusText = "Error starting."
    ∧ (sendAudio demoEnv uiSt0 ChatResult.netError).history = [errorMsg] := by
  have h1 := (claim5_transport_failure demoEnv uiSt0).1 StartResult.netError
    (Or.inl rfl) rfl rfl
  have h2 := (claim5_transport_failure demoEnv uiSt0).2 ChatResult.netError
    (Or.inl rfl) (by intro m hm; simp [uiSt0] at hm)
  exact ⟨h1.1, h1.2.2.1, by simpa [uiSt0] using h2.2.1⟩

/-- C6: a successful `startSession` stores the returned session identifier
and disables the parameter controls, and the latch is one-way — once the
controls are disabled, no event (a further start click, a parameter edit,
a completed turn) re-enables them or changes the stored parameters or the
stored session identifier, over any sequence of subsequent events. -/
theorem claim6_parameter_latch (audioEnv : AudioSegment → ClipOutcome)
    (st : UiState) (e : UiEvent) (es : List UiEvent) (d : StartResponse) :
    ((startSession audioEnv st (StartResult.ok d)).controlsDisabled = true
      ∧ (startSession audioEnv st (StartResult.ok d)).currentSessionId
          = some d.session_id
      ∧ (startSession audioEnv st (StartResult.ok d)).selectedLang = st.selectedLang
      ∧ (startSession audioEnv st (StartResult.ok d)).level = st.level)
    ∧ (st.controlsDisabled = true →
        (step audioEnv st e).controlsDisabled = true
        ∧ (step audioEnv st e).selectedLang = st.selectedLang
        ∧ (step audioEnv st e).level = st.level
        ∧ (step audioEnv st e).currentSessionId = st.currentSessionId)
    ∧ (st.controlsDisabled = true →
        (es.foldl (step audioEnv) st).controlsDisabled = true
        ∧ (es.foldl (step audioEnv) st).selectedLang = st.selectedLang
        ∧ (es.foldl (step audioEnv) st).level = st.level
        ∧ (es.foldl (step audioEnv) st).currentSessionId = st.currentSessionId) := by
  refine ⟨⟨rfl, rfl, rfl, rfl⟩, step_preserves_latch audioEnv st e, ?_⟩
  induction es generalizing st with
  | nil => intro h; exact ⟨h, rfl, rfl, rfl⟩
  | cons x xs ih =>
    intro h
    have hx := step_preserves_latch audioEnv st x h
    have hxs := ih (step audioEnv st x) hx.1
    exact ⟨hxs.1, hxs.2.1.trans hx.2.1, hxs.2.2.1.trans hx.2.2.1,
      hxs.2.2.2.trans hx.2.2.2⟩

/-- Demonstration /start response carrying one greeting segment and no
audio. -/
theorem claim6_parameter_latch_witness :
    (startSession demoEnv uiSt0 (StartResult.ok startResp0)).controlsDisabled = true
    ∧ (step demoEnv (startSession demoEnv uiSt0 (StartResult.ok startResp0))
        (UiEvent.selectLang "ru")).selectedLang = "fr" := by
  have h := claim6_parameter_latch demoEnv uiSt0 (UiEvent.selectLang "ru") [] startResp0
  have h2 := claim6_parameter_latch demoEnv
    (startSession demoEnv uiSt0 (StartResult.ok startResp0))
    (UiEvent.selectLang "ru") [] startResp0
  exact ⟨h.1.1, (h2.2.1 h.1.1).2.1.trans h.1.2.2.1⟩

/-- Demonstration minimal /chat response: a transcript only, no feedback
payloads, no segments, no audio. -/
theorem claim9_counterexample :
    sendAudioPending [] ≠ []
    ∧ placeholderMsg ∈ sendAudioPending []
    ∧ placeholderMsg ∉ (sendAudio demoEnv uiSt0 (ChatResult.ok respMinimal)).history := by
  refine ⟨by simp [sendAudioPending], by simp [sendAudioPending], ?_⟩
  decide

/-- C9 amended: the conversation history is append-only up to the
transient per-turn placeholder.  `sendAudio` appends exactly one user
placeholder before the response arrives; when the response or an error
arrives, exactly that placeholder is removed and the entries of the turn (or
the visible error marker) are appended after the previously rendered
entries, which are preserved unchanged and in order. -/
theorem claim9_amended_append_only (audioEnv : AudioSegment → ClipOutcome)
    (st : UiState) (resp : ChatResponse)
    (hclean : ∀ m ∈ st.history, Msg.isUserPlaceholder m = false) :
    sendAudioPending st.history = st.history ++ [placeholderMsg]
    ∧ (sendAudio audioEnv st ChatResult.netError).history = st.history ++ [errorMsg]
    ∧ (sendAudio audioEnv st ChatResult.httpError).history = st.history ++ [errorMsg]
    ∧ ((playAudioSequentially audioEnv resp.audio_segments).ok = true →
        (sendAudio audioEnv st (ChatResult.ok resp)).history
          = st.history ++ turnEntries st.selectedLang resp)
    ∧ ((playAudioSequentially audioEnv resp.audio_segments).ok = false →
        resp.audio_segments ≠ [] →
        (sendAudio audioEnv st (ChatResult.ok resp)).history
          = st.history ++ turnEntries st.selectedLang resp ++ [errorMsg]) := by
  have herase := eraseP_pending_append st.history [errorMsg] hclean
  have hsucc := sendAudioSuccessHistory_eq st.selectedLang st.history resp hclean
  refine ⟨rfl, by simpa [sendAudio, sendAudioPending] using herase,
    by simpa [sendAudio, sendAudioPending] using herase, ?_, ?_⟩
  · intro hok
    simp [sendAudio, hok, hsucc]
  · intro hfail hne
    have herase4 : List.eraseP (fun m => Msg.isUserPlaceholder m)
        ((st.history ++ turnEntries st.selectedLang resp) ++ [errorMsg])
        = (st.history ++ turnEntries st.selectedLang resp) ++ [errorMsg] := by
      apply List.eraseP_of_forall_not
      intro m hm
      simp only [List.mem_append, List.mem_singleton] at hm
      rcases hm with (hm | hm) | hm
      · simp [hclean m hm]
      · simp [turnEntries_clean st.selectedLang resp m hm]
      · subst hm; simp [errorMsg, Msg.isUserPlaceholder]
    have hne2 : resp.audio_segments.isEmpty = false := by
      cases h : resp.audio_segments with
      | nil => exact absurd h hne
      | cons a l => rfl
    simp only [sendAudio, hsucc, hfail, hne2]
    simp [herase4, List.append_assoc]
    intro m hm
    rcases hm with hm | hm | hm
    · exact hclean m hm
    · exact turnEntries_clean st.selectedLang resp m hm
    · subst hm; rfl

/-- Witness for the amended C9: from the concrete empty history, a /chat
network error yields exactly the error marker, and a successful minimal
response yields exactly the user entry of the turn. -/
theorem claim9_amended_append_only_witness :
    (sendAudio demoEnv uiSt0 ChatResult.netError).history = [errorMsg]
    ∧ (sendAudio demoEnv uiSt0 (ChatResult.ok respMinimal)).history
        = [Msg.plain "Bonjour" "user" false] := by
  have h := claim9_amended_append_only demoEnv uiSt0 respMinimal
    (by intro m hm; simp [uiSt0] at hm)
  refine ⟨by simpa [uiSt0] using h.2.1, ?_⟩
  have h4 := h.2.2.2.1 (by decide)
  simpa [uiSt0, respMinimal, turnEntries] using h4

/-- C10: whenever a /chat response carries a pronunciation object, the
rendered turn contains the pronunciation panel, and a missing (or zero)
score field is substituted by 0 and displayed as a 0.0 percent score in
the panel header rather than omitted. -/
theorem claim10_pronunciation_panel (sourceLang : String) (hist : List Msg)
    (resp : ChatResponse) (p : Pronunciation) :
    (resp.pronunciation = some p →
      Msg.pronPanel (renderPronunciation p)
        ∈ sendAudioSuccessHistory sourceLang hist resp)
    ∧ (p.score = none ∨ p.score = some 0 →
      (renderPronunciation p).header = "🔄 Prononciation: 0.0%") := by
  constructor
  · intro hp
    rw [sendAudioSuccessHistory_spec]
    simp [hp, pronEntry, List.mem_append]
  · intro hs
    rcases hs with hs | hs <;>
      simp [renderPronunciation, hs, scoreEmojiOf, jsToFixed1] <;> rfl

/-- Demonstration pronunciation payload with a missing score field. -/
theorem claim10_pronunciation_panel_witness :
    Msg.pronPanel (renderPronunciation pronNoScore)
      ∈ sendAudioSuccessHistory "fr" [] respWithPron
    ∧ (renderPronunciation pronNoScore).header = "🔄 Prononciation: 0.0%" :=
  ⟨(claim10_pronunciation_panel "fr" [] respWithPron pronNoScore).1 rfl,
   (claim10_pronunciation_panel "fr" [] respWithPron pronNoScore).2 (Or.inl rfl)⟩

end VoiceChat
